import Mathlib

/-!
Verification development for the image-cache layer of `web_fotografo.py`
(photography portfolio site).  The Python source is shallowly embedded:
the filesystem is an explicit map from paths to optional byte lists,
PIL and exception handling are modelled by total functions returning
options / booleans, and machine integers are Nat/Int with explicit
reductions where overflow matters (the MD5 model works mod 2^32).
-/

namespace Fotoweb

/-- A filesystem: each path maps to the bytes of a readable file, or to
`none` when the file is absent or unreadable.  Bytes are naturals < 256. -/
def FS : Type := String → Option (List Nat)

/-- Writing a file: the Python side effect of saving bytes at a path. -/
def FS.write (fs : FS) (p : String) (bs : List Nat) : FS :=
  fun q => if q = p then some bs else fs q

/-! ## Model of `hashlib.md5(...).hexdigest()`

Full MD5 (RFC 1321) over a byte list, with 32-bit words as Nat mod 2^32. -/

/-- Truncation to a 32-bit word. -/
def w32 (x : Nat) : Nat := x % 4294967296

/-- Bitwise complement on 32 bits. -/
def mnot (x : Nat) : Nat := 4294967295 - w32 x

/-- Left-rotation of a 32-bit word by `c` places (`0 ≤ c ≤ 32`). -/
def rotl (x c : Nat) : Nat := (x * 2 ^ c + x / 2 ^ (32 - c)) % 4294967296

/-- The 64 MD5 sine constants `K[i]`. -/
def md5K : List Nat :=
  [0xd76aa478, 0xe8c7b756, 0x242070db, 0xc1bdceee,
   0xf57c0faf, 0x4787c62a, 0xa8304613, 0xfd469501,
   0x698098d8, 0x8b44f7af, 0xffff5bb1, 0x895cd7be,
   0x6b901122, 0xfd987193, 0xa679438e, 0x49b40821,
   0xf61e2562, 0xc040b340, 0x265e5a51, 0xe9b6c7aa,
   0xd62f105d, 0x02441453, 0xd8a1e681, 0xe7d3fbc8,
   0x21e1cde6, 0xc33707d6, 0xf4d50d87, 0x455a14ed,
   0xa9e3e905, 0xfcefa3f8, 0x676f02d9, 0x8d2a4c8a,
   0xfffa3942, 0x8771f681, 0x6d9d6122, 0xfde5380c,
   0xa4beea44, 0x4bdecfa9, 0xf6bb4b60, 0xbebfbc70,
   0x289b7ec6, 0xeaa127fa, 0xd4ef3085, 0x04881d05,
   0xd9d4d039, 0xe6db99e5, 0x1fa27cf8, 0xc4ac5665,
   0xf4292244, 0x432aff97, 0xab9423a7, 0xfc93a039,
   0x655b59c3, 0x8f0ccc92, 0xffeff47d, 0x85845dd1,
   0x6fa87e4f, 0xfe2ce6e0, 0xa3014314, 0x4e0811a1,
   0xf7537e82, 0xbd3af235, 0x2ad7d2bb, 0xeb86d391]

/-- Per-round shift amounts `s[i]`. -/
def md5S (i : Nat) : Nat :=
  match i / 16, i % 4 with
  | 0, 0 => 7 | 0, 1 => 12 | 0, 2 => 17 | 0, 3 => 22
  | 1, 0 => 5 | 1, 1 => 9  | 1, 2 => 14 | 1, 3 => 20
  | 2, 0 => 4 | 2, 1 => 11 | 2, 2 => 16 | 2, 3 => 23
  | _, 0 => 6 | _, 1 => 10 | _, 2 => 15 | _, _ => 21

/-- Message-word index `g` for round `i`. -/
def md5G (i : Nat) : Nat :=
  match i / 16 with
  | 0 => i % 16
  | 1 => (5 * i + 1) % 16
  | 2 => (3 * i + 5) % 16
  | _ => (7 * i) % 16

/-- The nonlinear mixing function of round `i`. -/
def md5Mix (i b c d : Nat) : Nat :=
  match i / 16 with
  | 0 => (b &&& c) ||| (mnot b &&& d)
  | 1 => (d &&& b) ||| (mnot d &&& c)
  | 2 => b ^^^ c ^^^ d
  | _ => c ^^^ (b ||| mnot d)

/-- One of the 64 MD5 rounds; `m` fetches the block's 16 message words. -/
def md5Step (m : Nat → Nat) (st : Nat × Nat × Nat × Nat) (i : Nat) :
    Nat × Nat × Nat × Nat :=
  let a := st.1
  let b := st.2.1
  let c := st.2.2.1
  let d := st.2.2.2
  let f := w32 (md5Mix i b c d + a + md5K.getD i 0 + m (md5G i))
  (d, w32 (b + rotl f (md5S i)), b, c)

/-- Little-endian 32-bit word `j` of a 64-byte block. -/
def blockWord (block : List Nat) (j : Nat) : Nat :=
  block.getD (4 * j) 0 + 256 * block.getD (4 * j + 1) 0 +
    65536 * block.getD (4 * j + 2) 0 + 16777216 * block.getD (4 * j + 3) 0

/-- Process one 64-byte block, updating the running state. -/
def md5Block (st : Nat × Nat × Nat × Nat) (block : List Nat) :
    Nat × Nat × Nat × Nat :=
  let r := (List.range 64).foldl (md5Step (blockWord block)) st
  (w32 (st.1 + r.1), w32 (st.2.1 + r.2.1),
   w32 (st.2.2.1 + r.2.2.1), w32 (st.2.2.2 + r.2.2.2))

/-- Split a list into 64-byte chunks (fuel-structural so the kernel reduces it). -/
def chunksAux : Nat → List Nat → List (List Nat)
  | 0, _ => []
  | _, [] => []
  | fuel + 1, l => l.take 64 :: chunksAux fuel (l.drop 64)

/-- Split a byte list into 64-byte chunks. -/
def chunks64 (l : List Nat) : List (List Nat) := chunksAux l.length l

/-- The eight little-endian bytes of the 64-bit message bit-length. -/
def md5LenBytes (n : Nat) : List Nat :=
  (List.range 8).map (fun i => n / 2 ^ (8 * i) % 256)

/-- MD5 padding: append 0x80, zero-fill to 56 mod 64, append the bit length. -/
def md5Pad (msg : List Nat) : List Nat :=
  let L := msg.length
  msg ++ [128] ++ List.replicate ((120 - (L + 1) % 64) % 64) 0 ++
    md5LenBytes (8 * L % 18446744073709551616)

/-- Run all blocks from the standard initial state. -/
def md5Rounds (blocks : List (List Nat)) : Nat × Nat × Nat × Nat :=
  blocks.foldl md5Block (0x67452301, 0xefcdab89, 0x98badcfe, 0x10325476)

/-- The four little-endian bytes of a 32-bit word. -/
def toLE4 (x : Nat) : List Nat :=
  [x % 256, x / 256 % 256, x / 65536 % 256, x / 16777216 % 256]

/-- The 16 digest bytes of a message. -/
def md5DigestBytes (msg : List Nat) : List Nat :=
  let st := md5Rounds (chunks64 (md5Pad msg))
  toLE4 st.1 ++ toLE4 st.2.1 ++ toLE4 st.2.2.1 ++ toLE4 st.2.2.2

/-- Lowercase hexadecimal digit. -/
def hexDigitChar (n : Nat) : Char :=
  if n < 10 then Char.ofNat (48 + n) else Char.ofNat (87 + n)

/-- Two lowercase hex characters of one byte. -/
def byteToHex (b : Nat) : List Char := [hexDigitChar (b / 16 % 16), hexDigitChar (b % 16)]

/-- Model of Python's `hashlib.md5(data).hexdigest()`: 32 lowercase hex chars. -/
def md5_hexdigest (msg : List Nat) : String :=
  ⟨(md5DigestBytes msg).foldr (fun b acc => byteToHex b ++ acc) []⟩

/-! ## Model of Python's `str(hash(path))` fallback

CPython's `hash` on strings is a process-randomized 64-bit signed value, so it
is kept abstract as a function `String → Int` constrained (in theorems) to the
signed 64-bit range.  `str` of an int is its decimal rendering. -/

/-- Decimal digits of `n`, least significant first (fuel-structural). -/
def decDigitsAux : Nat → Nat → List Nat
  | 0, _ => []
  | _, 0 => []
  | fuel + 1, n => n % 10 :: decDigitsAux fuel (n / 10)

/-- Model of Python `str` on a nonnegative int. -/
def natStr (n : Nat) : String :=
  if n = 0 then "0"
  else ⟨((decDigitsAux n n).map (fun d => Char.ofNat (48 + d))).reverse⟩

/-- Model of Python `str` on an int (minus sign for negatives). -/
def intStr (i : Int) : String :=
  if i < 0 then "-" ++ natStr i.natAbs else natStr i.toNat

/-! ## The content hasher: `get_image_hash` (lines 48–55)

`try: open(path,'rb'); md5(read).hexdigest()  except: str(hash(path))`. -/

/-- Embedding of `get_image_hash`: the MD5 hexdigest of the file's bytes, or
`str(hash(path))` when the file cannot be read.  `pyHash` is the process's
randomized string-hash function. -/
def get_image_hash (pyHash : String → Int) (fs : FS) (image_path : String) : String :=
  match fs image_path with
  | some bytes => md5_hexdigest bytes
  | none => intStr (pyHash image_path)

/-! ## Configuration constants (lines 33–40) -/

/-- Thumbnail bounding box (400, 300). -/
def THUMBNAIL_SIZE : Nat × Nat := (400, 300)

/-- Preview bounding box (800, 600). -/
def PREVIEW_SIZE : Nat × Nat := (800, 600)

/-- Thumbnail encode quality. -/
def THUMBNAIL_QUALITY : Nat := 85

/-- Preview encode quality. -/
def PREVIEW_QUALITY : Nat := 90

/-- Images shown per gallery page. -/
def IMAGES_PER_PAGE : Nat := 8

/-- Cache root directory. -/
def CACHE_DIR : String := "cache"

/-- Thumbnail artifact directory. -/
def THUMBNAILS_DIR : String := CACHE_DIR ++ "/thumbnails"

/-- Preview artifact directory. -/
def PREVIEWS_DIR : String := CACHE_DIR ++ "/previews"

/-! ## Model of PIL: images, decoding, `Image.thumbnail`, `Image.save`

Only what the source touches is modelled: an image's color mode and pixel
dimensions, plus an environment that decodes bytes into images and encodes
images back into bytes (possibly failing, possibly leaving a half-written
file, as a real `save` to a filename can). -/

/-- A PIL color mode; only the modes the source distinguishes are named. -/
inductive PILMode
  | RGB | RGBA | LA | P | other
deriving DecidableEq, Repr

/-- A decoded PIL image: mode and positive pixel dimensions. -/
structure PILImage where
  mode : PILMode
  width : Nat
  height : Nat
deriving DecidableEq, Repr

/-- Outcome of `img.save(path, ...)`: success with the encoded bytes, or an
exception that may or may not have left bytes at the destination. -/
inductive SaveResult
  | ok (bytes : List Nat)
  | err (leftover : Option (List Nat))
deriving DecidableEq, Repr

/-- The imaging environment: `Image.open` on bytes and `img.save`.
`save` takes the image, the format string and the quality. -/
structure Env where
  decode : List Nat → Option PILImage
  save : PILImage → String → Nat → SaveResult

/-- Ceiling division on naturals (for `math.ceil(a / b)` with exact rationals). -/
def ceilDiv (a b : Nat) : Nat := (a + b - 1) / b

/-- PIL `Image.thumbnail` key comparison in the width branch:
whether `abs(aspect - f/ty) <= abs(aspect - c/ty)` where `aspect = w/h`,
cross-multiplied by the positive `h * ty`. -/
def keyXle (w h ty f c : Nat) : Bool :=
  ((w * ty : Int) - f * h).natAbs ≤ ((w * ty : Int) - c * h).natAbs

/-- PIL `Image.thumbnail` key comparison in the height branch:
`key n = 0 if n == 0 else abs(aspect - tx/n)`; whether `key f <= key c`,
cross-multiplied by the positive `h * f * c` when `f` is nonzero. -/
def keyYle (w h tx f c : Nat) : Bool :=
  if f = 0 then true
  else ((w * f : Int) - tx * h).natAbs * c ≤ ((w * c : Int) - tx * h).natAbs * f

/-- Dimensions produced by PIL's `Image.thumbnail((tx, ty))` on a `w × h`
image: unchanged when the image already fits; otherwise the constrained side
is set to the box and the other side is the floor or ceiling of the exact
aspect-preserving value, whichever is closer (floor on ties), at least 1.
Division is modelled exactly (the C implementation uses doubles). -/
def pilThumbnailDims (w h tx ty : Nat) : Nat × Nat :=
  if w ≤ tx ∧ h ≤ ty then (w, h)
  else if w * ty ≤ tx * h then
    (max (if keyXle w h ty (ty * w / h) (ceilDiv (ty * w) h)
          then ty * w / h else ceilDiv (ty * w) h) 1, ty)
  else
    (tx, max (if keyYle w h tx (tx * h / w) (ceilDiv (tx * h) w)
              then tx * h / w else ceilDiv (tx * h) w) 1)

/-- The mode conversion at line 69–70: convert RGBA/LA/P to RGB for WebP. -/
def convertForWebP (img : PILImage) : PILImage :=
  if img.mode = PILMode.RGBA ∨ img.mode = PILMode.LA ∨ img.mode = PILMode.P then
    { img with mode := PILMode.RGB }
  else img

/-- The image actually handed to `img.save`: mode-converted then resized
in place by `img.thumbnail(target_size, LANCZOS)`. -/
def resizedImage (img : PILImage) (target : Nat × Nat) : PILImage :=
  let base := convertForWebP img
  let d := pilThumbnailDims base.width base.height target.1 target.2
  { mode := base.mode, width := d.1, height := d.2 }

/-! ## The transcoder: `optimize_image_for_web` (lines 62–88)

Returns a success flag and the filesystem after the call.  Every failure
(unreadable source, undecodable bytes, failing save) is caught by the
`except` and yields `false`; a failing save may leave bytes at
`output_path`, which the function does not clean up. -/

/-- Embedding of `optimize_image_for_web`. -/
def optimize_image_for_web (env : Env) (fs : FS) (image_path output_path : String)
    (target_size : Nat × Nat) (quality : Nat) : Bool × FS :=
  match fs image_path with
  | none => (false, fs)
  | some bs =>
    match env.decode bs with
    | none => (false, fs)
    | some img =>
      match env.save (resizedImage img target_size) "WebP" quality with
      | SaveResult.ok out => (true, FS.write fs output_path out)
      | SaveResult.err none => (false, fs)
      | SaveResult.err (some junk) => (false, FS.write fs output_path junk)

/-! ## The cache resolvers (lines 90–130) -/

/-- The composed thumbnail artifact path for a source image. -/
def thumbnail_path_of (pyHash : String → Int) (fs : FS) (image_path : String) : String :=
  THUMBNAILS_DIR ++ "/" ++ (get_image_hash pyHash fs image_path ++ "_thumb.webp")

/-- The composed preview artifact path for a source image. -/
def preview_path_of (pyHash : String → Int) (fs : FS) (image_path : String) : String :=
  PREVIEWS_DIR ++ "/" ++ (get_image_hash pyHash fs image_path ++ "_preview.webp")

/-- Embedding of `get_or_create_thumbnail`: hash, compose the artifact path,
return it on existence, otherwise transcode; on transcoder failure fall back
to the original path.  Every step of the model is total, mirroring the
catch-all `except` that prevents any exception from escaping. -/
def get_or_create_thumbnail (env : Env) (pyHash : String → Int) (fs : FS)
    (image_path : String) : String × FS :=
  if (fs (thumbnail_path_of pyHash fs image_path)).isSome then
    (thumbnail_path_of pyHash fs image_path, fs)
  else if (optimize_image_for_web env fs image_path
      (thumbnail_path_of pyHash fs image_path) THUMBNAIL_SIZE THUMBNAIL_QUALITY).1 then
    (thumbnail_path_of pyHash fs image_path,
     (optimize_image_for_web env fs image_path
       (thumbnail_path_of pyHash fs image_path) THUMBNAIL_SIZE THUMBNAIL_QUALITY).2)
  else
    (image_path,
     (optimize_image_for_web env fs image_path
       (thumbnail_path_of pyHash fs image_path) THUMBNAIL_SIZE THUMBNAIL_QUALITY).2)

/-- Embedding of `get_or_create_preview` (same shape, preview variant). -/
def get_or_create_preview (env : Env) (pyHash : String → Int) (fs : FS)
    (image_path : String) : String × FS :=
  if (fs (preview_path_of pyHash fs image_path)).isSome then
    (preview_path_of pyHash fs image_path, fs)
  else if (optimize_image_for_web env fs image_path
      (preview_path_of pyHash fs image_path) PREVIEW_SIZE PREVIEW_QUALITY).1 then
    (preview_path_of pyHash fs image_path,
     (optimize_image_for_web env fs image_path
       (preview_path_of pyHash fs image_path) PREVIEW_SIZE PREVIEW_QUALITY).2)
  else
    (image_path,
     (optimize_image_for_web env fs image_path
       (preview_path_of pyHash fs image_path) PREVIEW_SIZE PREVIEW_QUALITY).2)

/-! ## The batch scheduler: `batch_process_thumbnails_silent` (lines 132–151)

The submission loop enqueues one `get_or_create_thumbnail` future per input
path, in input order; the collection loop walks the futures in the same
order, awaiting each with a 10-second timeout and degrading a timed-out or
raising item to `(original, original)`.  The concurrent execution is
abstracted by an `outcome` oracle: `outcome i p = some t` when future `i`
(submitted for path `p`) delivers `t` within the timeout, and `none` when it
times out or raises — the model is therefore quantified over every possible
completion order and interleaving. -/

/-- Embedding of `batch_process_thumbnails_silent` over a future-outcome
oracle. -/
def batch_process_thumbnails_silent (outcome : Nat → String → Option String)
    (image_paths : List String) : List (String × String) :=
  let futures := image_paths.enum.map (fun ip => (outcome ip.1 ip.2, ip.2))
  futures.map (fun fo =>
    match fo.1 with
    | some thumbnail_path => (fo.2, thumbnail_path)
    | none => (fo.2, fo.2))

/-! ## The gallery lister: `obtener_imagenes_galeria` (lines 155–172) -/

/-- ASCII lowercase conversion of one character (model of `str.lower`
restricted to ASCII, which covers the extension whitelist). -/
def pyCharLower (ch : Char) : Char :=
  if 65 ≤ ch.toNat ∧ ch.toNat ≤ 90 then Char.ofNat (ch.toNat + 32) else ch

/-- Model of Python `str.lower()`. -/
def pyLower (s : String) : String := ⟨s.data.map pyCharLower⟩

/-- Model of Python `str.endswith(suffix)`. -/
def pyEndsWith (s suffix : String) : Bool :=
  suffix.data == List.drop (s.data.length - suffix.data.length) s.data

/-- The extension whitelist at line 162. -/
def EXTENSIONES : List String :=
  ["jpg", "jpeg", "png", "webp", "JPG", "JPEG", "PNG", "WEBP"]

/-- The filter at line 166: `any(archivo.lower().endswith('.'+ext.lower()))`. -/
def es_imagen (archivo : String) : Bool :=
  EXTENSIONES.any (fun ext => pyEndsWith (pyLower archivo) ("." ++ pyLower ext))

/-- The `.replace('\\', '/')` at line 167. -/
def replaceBackslash (s : String) : String :=
  ⟨s.data.map (fun ch => if ch = '\\' then '/' else ch)⟩

/-- Embedding of `obtener_imagenes_galeria`: list the gallery directory
(`listdir dir = none` when the directory does not exist), keep the image
files, join with the directory, dedup through a set, and sort ascending. -/
def obtener_imagenes_galeria (listdir : String → Option (List String))
    (nombre_galeria : String) : List String :=
  let ruta_galeria := "imagenes/Galerias/" ++ nombre_galeria
  match listdir ruta_galeria with
  | none => []
  | some archivos =>
    let imagenes_set :=
      ((archivos.filter es_imagen).map
        (fun archivo => replaceBackslash (ruta_galeria ++ "/" ++ archivo))).dedup
    imagenes_set.insertionSort (· ≤ ·)

/-- The case-insensitive image-extension predicate the spec describes:
the lowercased name ends in one of ".jpg", ".jpeg", ".png", ".webp". -/
def spec_is_image_file (archivo : String) : Bool :=
  pyEndsWith (pyLower archivo) ".jpg" || pyEndsWith (pyLower archivo) ".jpeg" ||
    pyEndsWith (pyLower archivo) ".png" || pyEndsWith (pyLower archivo) ".webp"

/-! ## Pagination (lines 193–232) -/

/-- Line 198: `total_pages = (total_imagenes + IMAGES_PER_PAGE - 1) // IMAGES_PER_PAGE`. -/
def total_pages (total_imagenes : Nat) : Nat :=
  (total_imagenes + IMAGES_PER_PAGE - 1) / IMAGES_PER_PAGE

/-- The four pagination buttons. -/
inductive PaginationAction
  | first | prev | next | last
deriving DecidableEq, Repr

/-- Session-state initialization at lines 194–195: absent page state becomes 0. -/
def init_page (saved : Option Nat) : Nat := saved.getD 0

/-- One pagination click (lines 205–225).  A disabled button
(`current_page == 0` for first/prev, `current_page >= total_pages - 1` for
next/last) cannot fire and leaves the page unchanged; an enabled one stores
the clamped new page. -/
def pagination_click (total_imagenes current_page : Nat) :
    PaginationAction → Nat
  | PaginationAction.first =>
      if current_page = 0 then current_page else 0
  | PaginationAction.prev =>
      if current_page = 0 then current_page else max 0 (current_page - 1)
  | PaginationAction.next =>
      if total_pages total_imagenes - 1 ≤ current_page then current_page
      else min (total_pages total_imagenes - 1) (current_page + 1)
  | PaginationAction.last =>
      if total_pages total_imagenes - 1 ≤ current_page then current_page
      else total_pages total_imagenes - 1

/-- Line 230: `start_idx = current_page * IMAGES_PER_PAGE`. -/
def start_idx (current_page : Nat) : Nat := current_page * IMAGES_PER_PAGE

/-- Line 231: `end_idx = min(start_idx + IMAGES_PER_PAGE, total_imagenes)`. -/
def end_idx (total_imagenes current_page : Nat) : Nat :=
  min (start_idx current_page + IMAGES_PER_PAGE) total_imagenes

/-! ## Concrete fixtures used by the evaluation witnesses below -/

/-- A fixed (deterministic) instance of Python's randomized string hash. -/
def pyHash0 : String → Int := fun _ => 0

/-- A tiny 2 × 2 RGB image. -/
def imgSmall : PILImage := { mode := PILMode.RGB, width := 2, height := 2 }

/-- An environment in which nothing decodes and every save fails cleanly. -/
def envNone : Env :=
  { decode := fun _ => none, save := fun _ _ _ => SaveResult.err none }

/-- An environment that decodes the byte string `[1]` into `imgSmall` and
always saves successfully, encoding an image as its two dimensions. -/
def envOk : Env :=
  { decode := fun bs => if bs = [1] then some imgSmall else none,
    save := fun img _ _ => SaveResult.ok [img.width, img.height] }

/-- An environment whose every save raises after writing the byte `[9]`
at the destination (a half-written artifact). -/
def envBad : Env :=
  { decode := fun bs => if bs = [1] then some imgSmall else none,
    save := fun _ _ _ => SaveResult.err (some [9]) }

/-- The empty filesystem: nothing is readable. -/
def fsNone : FS := fun _ => none

/-- A filesystem holding one thumbnail artifact for the fallback key "0". -/
def fsHit : FS :=
  fun p => if p = "cache/thumbnails/0_thumb.webp" then some [1] else none

/-- A filesystem holding one readable source image. -/
def fsFoto : FS := fun p => if p = "foto.jpg" then some [1] else none

/-- A filesystem holding two distinct files with identical bytes. -/
def fsPair : FS :=
  fun p => if p = "a.jpg" then some [7] else if p = "b.jpg" then some [7] else none

/-- The thumbnail artifact path composed for `fsFoto`'s source image. -/
def tpFoto : String := thumbnail_path_of pyHash0 fsFoto "foto.jpg"

/-- A batch outcome oracle in which future 1 times out and the rest resolve. -/
def outcomeA : Nat → String → Option String :=
  fun i _ => if i = 1 then none else some "cache/thumbnails/h_thumb.webp"

/-- A second oracle agreeing with `outcomeA` everywhere except future 1. -/
def outcomeB : Nat → String → Option String :=
  fun i p => if i = 1 then some "cache/thumbnails/k_thumb.webp" else outcomeA i p

/-- A directory listing with one gallery holding two images (case-variant
names) and one text file. -/
def listdirBoda : String → Option (List String) :=
  fun r => if r = "imagenes/Galerias/boda" then
    some ["photo1.JPG", "photo1.jpg", "notes.txt"] else none

/-! ## Helper lemmas -/

/-- The MD5 digest always has exactly 16 bytes. -/
theorem md5DigestBytes_length (msg : List Nat) : (md5DigestBytes msg).length = 16 := by
  simp [md5DigestBytes, toLE4]

/-- Folding bytes into hex pairs doubles the length. -/
theorem hexFold_length (l : List Nat) :
    (l.foldr (fun b acc => byteToHex b ++ acc) ([] : List Char)).length = 2 * l.length := by
  induction l with
  | nil => simp
  | cons b t ih =>
    simp only [List.foldr_cons, List.length_append, ih, List.length_cons]
    have h2 : (byteToHex b).length = 2 := rfl
    omega

/-- An MD5 hexdigest always has exactly 32 characters. -/
theorem md5_hexdigest_length (msg : List Nat) : (md5_hexdigest msg).length = 32 := by
  show (List.foldr (fun b acc => byteToHex b ++ acc) [] (md5DigestBytes msg)).length = 32
  rw [hexFold_length, md5DigestBytes_length]

/-- Fuel-indexed decimal digit list is short for small numbers. -/
theorem decDigitsAux_length_le (fuel : Nat) :
    ∀ n k : Nat, n ≤ fuel → n < 10 ^ k → (decDigitsAux fuel n).length ≤ k := by
  induction fuel with
  | zero => intro n k _ _; simp [decDigitsAux]
  | succ fuel ih =>
    intro n k hfuel hk
    cases n with
    | zero => simp [decDigitsAux]
    | succ m =>
      cases k with
      | zero => omega
      | succ k =>
        have hstep : (decDigitsAux (fuel + 1) (m + 1)).length =
            (decDigitsAux fuel ((m + 1) / 10)).length + 1 := by
          simp [decDigitsAux]
        rw [hstep]
        have hdiv_le : (m + 1) / 10 ≤ fuel := by
          have := Nat.div_lt_self (Nat.succ_pos m) (by norm_num : 1 < 10)
          omega
        have hdiv_lt : (m + 1) / 10 < 10 ^ k := by
          apply Nat.div_lt_of_lt_mul
          rw [pow_succ] at hk
          omega
        have := ih ((m + 1) / 10) k hdiv_le hdiv_lt
        omega

/-- The decimal rendering of `n < 10^k` (with `k ≥ 1`) has at most `k` digits. -/
theorem natStr_length_le (n k : Nat) (hk : n < 10 ^ k) (hk1 : 0 < k) :
    (natStr n).length ≤ k := by
  unfold natStr
  split
  · simpa using hk1
  · show ((decDigitsAux n n).map (fun d => Char.ofNat (48 + d))).reverse.length ≤ k
    rw [List.length_reverse, List.length_map]
    exact decDigitsAux_length_le n n k (le_refl n) hk

/-- The decimal rendering of a signed 64-bit value has at most 20 characters. -/
theorem intStr_length_le (i : Int) (hlo : -(2 ^ 63) ≤ i) (hhi : i < 2 ^ 63) :
    (intStr i).length ≤ 20 := by
  have h63 : (2 : Int) ^ 63 = 9223372036854775808 := by norm_num
  rw [h63] at hlo hhi
  have h19 : (10 : Nat) ^ 19 = 10000000000000000000 := by norm_num
  unfold intStr
  split
  · rw [String.length_append]
    have habs : i.natAbs < 10 ^ 19 := by omega
    have := natStr_length_le i.natAbs 19 habs (by norm_num)
    have hdash : ("-" : String).length = 1 := rfl
    omega
  · have habs : i.toNat < 10 ^ 19 := by omega
    have := natStr_length_le i.toNat 19 habs (by norm_num)
    omega

/-- Floor-division sandwich: `b * (a / b) ≤ a < b * (a / b) + b`. -/
theorem floor_spec (a b : Nat) (hb : 0 < b) :
    b * (a / b) ≤ a ∧ a < b * (a / b) + b := by
  have e := Nat.div_add_mod a b
  have hr : a % b < b := Nat.mod_lt a hb
  omega

/-- Ceiling-division sandwich: `a ≤ b * ceilDiv a b < a + b`. -/
theorem ceil_spec (a b : Nat) (hb : 0 < b) :
    a ≤ b * ceilDiv a b ∧ b * ceilDiv a b < a + b := by
  unfold ceilDiv
  have e := Nat.div_add_mod (a + b - 1) b
  have hr : (a + b - 1) % b < b := Nat.mod_lt _ hb
  omega

/-- Ceiling division is bounded by any multiple dominating the numerator. -/
theorem ceil_le_of_le_mul (a b m : Nat) (hb : 0 < b) (h : a ≤ b * m) :
    ceilDiv a b ≤ m := by
  by_contra hc
  push_neg at hc
  have h1 : b * (m + 1) ≤ b * ceilDiv a b := Nat.mul_le_mul_left b hc
  have h2 := (ceil_spec a b hb).2
  have h3 : b * (m + 1) = b * m + b := by ring
  omega

/-- Bounded natural absolute value from two strict integer bounds. -/
theorem natAbs_lt_of_bounds (a : Int) (n : Nat) (h1 : -(n : Int) < a) (h2 : a < n) :
    a.natAbs < n := by omega

/-- In the width-constrained branch of `Image.thumbnail`, the box height does
not exceed the image height. -/
theorem thumb_ty_le_h (w h tx ty : Nat) (hh : 0 < h) (htx : 0 < tx)
    (hcond : ¬(w ≤ tx ∧ h ≤ ty)) (hord : w * ty ≤ tx * h) : ty ≤ h := by
  push_neg at hcond
  by_contra hyt
  push_neg at hyt
  have h1 : tx * h < tx * ty := mul_lt_mul_of_pos_left hyt htx
  have h2 : w * ty < tx * ty := lt_of_le_of_lt hord h1
  have h3 : w < tx := lt_of_mul_lt_mul_right h2 (Nat.zero_le ty)
  have h4 : ty < h := hcond (le_of_lt h3)
  omega

/-- In the height-constrained branch of `Image.thumbnail`, the box width does
not exceed the image width. -/
theorem thumb_tx_le_w (w h tx ty : Nat) (hw : 0 < w) (hty : 0 < ty)
    (hcond : ¬(w ≤ tx ∧ h ≤ ty)) (hord : tx * h < w * ty) : tx ≤ w := by
  push_neg at hcond
  by_contra hwt
  push_neg at hwt
  have h1 : w * ty < tx * ty := mul_lt_mul_of_pos_right hwt hty
  have h2 : tx * h < tx * ty := lt_trans hord h1
  have h3 : h < ty := lt_of_mul_lt_mul_left h2 (Nat.zero_le tx)
  have h4 : ty < h := hcond (le_of_lt hwt)
  omega
/-- Full behavioural specification of the modelled `Image.thumbnail`
dimensions: the result fits in the bounding box, never upscales, is
positive, and preserves the aspect ratio up to rounding (cross-multiplied
error below `max w h`). -/
theorem pilThumbnailDims_spec (w h tx ty : Nat) (hw : 0 < w) (hh : 0 < h)
    (htx : 0 < tx) (hty : 0 < ty) :
    (pilThumbnailDims w h tx ty).1 ≤ tx ∧ (pilThumbnailDims w h tx ty).2 ≤ ty ∧
    (pilThumbnailDims w h tx ty).1 ≤ w ∧ (pilThumbnailDims w h tx ty).2 ≤ h ∧
    0 < (pilThumbnailDims w h tx ty).1 ∧ 0 < (pilThumbnailDims w h tx ty).2 ∧
    ((h * (pilThumbnailDims w h tx ty).1 : Int) -
      w * (pilThumbnailDims w h tx ty).2).natAbs < max w h := by
  have hmaxh : h ≤ max w h := le_max_right w h
  have hmaxw : w ≤ max w h := le_max_left w h
  unfold pilThumbnailDims
  split
  case isTrue hcnd =>
    refine ⟨hcnd.1, hcnd.2, le_refl _, le_refl _, hw, hh, ?_⟩
    have he : ((h * w : Int) - w * h) = 0 := by ring
    simp only [he, Int.natAbs_zero]
    omega
  case isFalse hcnd =>
    split
    case isTrue hord =>
      -- width branch: result (max x 1, ty) with x the rounded ty * aspect
      dsimp only
      have hyh : ty ≤ h := thumb_ty_le_h w h tx ty hh htx hcnd hord
      have hfl := floor_spec (ty * w) h hh
      have hcl := ceil_spec (ty * w) h hh
      have hfc : ty * w / h ≤ ceilDiv (ty * w) h :=
        Nat.le_of_mul_le_mul_left (le_trans hfl.1 hcl.1) hh
      have hc_tx : ceilDiv (ty * w) h ≤ tx := by
        apply ceil_le_of_le_mul _ _ _ hh
        linarith [hord]
      have hc_w : ceilDiv (ty * w) h ≤ w := by
        apply ceil_le_of_le_mul _ _ _ hh
        exact mul_le_mul_right' hyh w
      have htyw : 0 < ty * w := Nat.mul_pos hty hw
      split
      case isTrue hkey =>
        refine ⟨by omega, le_refl _, by omega, hyh, by omega, hty, ?_⟩
        rcases Nat.eq_zero_or_pos (ty * w / h) with hf0 | hf1
        · have hlt : ty * w < h := by
            have h2 := hfl.2
            rw [hf0] at h2
            omega
          rw [hf0]
          simp only [Nat.zero_max]
          refine lt_of_lt_of_le ?_ hmaxh
          apply natAbs_lt_of_bounds
          · push_cast
            linarith
          · push_cast
            linarith
        · have hmx : max (ty * w / h) 1 = ty * w / h := by omega
          rw [hmx]
          refine lt_of_lt_of_le ?_ hmaxh
          apply natAbs_lt_of_bounds
          · have h1 := hfl.2
            push_cast
            linarith
          · have h1 := hfl.1
            push_cast
            linarith
      case isFalse hkey =>
        have hcpos : 0 < ceilDiv (ty * w) h := by
          rcases Nat.eq_zero_or_pos (ceilDiv (ty * w) h) with h0 | h1
          · have h2 := hcl.1
            rw [h0] at h2
            omega
          · exact h1
        have hmx : max (ceilDiv (ty * w) h) 1 = ceilDiv (ty * w) h := by omega
        rw [hmx]
        refine ⟨hc_tx, le_refl _, hc_w, hyh, hcpos, hty, ?_⟩
        refine lt_of_lt_of_le ?_ hmaxh
        apply natAbs_lt_of_bounds
        · have h1 := hcl.1
          push_cast
          linarith
        · have h1 := hcl.2
          push_cast
          linarith
    case isFalse hord =>
      -- height branch: result (tx, max y 1) with y the rounded tx / aspect
      dsimp only
      push_neg at hord
      have hxw : tx ≤ w := thumb_tx_le_w w h tx ty hw hty hcnd hord
      have hfl := floor_spec (tx * h) w hw
      have hcl := ceil_spec (tx * h) w hw
      have hfc : tx * h / w ≤ ceilDiv (tx * h) w :=
        Nat.le_of_mul_le_mul_left (le_trans hfl.1 hcl.1) hw
      have hc_ty : ceilDiv (tx * h) w ≤ ty := by
        apply ceil_le_of_le_mul _ _ _ hw
        linarith [hord]
      have hc_h : ceilDiv (tx * h) w ≤ h := by
        apply ceil_le_of_le_mul _ _ _ hw
        exact mul_le_mul_right' hxw h
      have htxh : 0 < tx * h := Nat.mul_pos htx hh
      split
      case isTrue hkey =>
        refine ⟨le_refl _, by omega, hxw, by omega, htx, by omega, ?_⟩
        rcases Nat.eq_zero_or_pos (tx * h / w) with hf0 | hf1
        · have hlt : tx * h < w := by
            have h2 := hfl.2
            rw [hf0] at h2
            omega
          rw [hf0]
          simp only [Nat.zero_max]
          refine lt_of_lt_of_le ?_ hmaxw
          apply natAbs_lt_of_bounds
          · push_cast
            linarith
          · push_cast
            linarith
        · have hmx : max (tx * h / w) 1 = tx * h / w := by omega
          rw [hmx]
          refine lt_of_lt_of_le ?_ hmaxw
          apply natAbs_lt_of_bounds
          · have h1 := hfl.1
            push_cast
            linarith
          · have h1 := hfl.2
            push_cast
            linarith
      case isFalse hkey =>
        have hcpos : 0 < ceilDiv (tx * h) w := by
          rcases Nat.eq_zero_or_pos (ceilDiv (tx * h) w) with h0 | h1
          · have h2 := hcl.1
            rw [h0] at h2
            omega
          · exact h1
        have hmx : max (ceilDiv (tx * h) w) 1 = ceilDiv (tx * h) w := by omega
        rw [hmx]
        refine ⟨le_refl _, hc_ty, hxw, hc_h, htx, hcpos, ?_⟩
        refine lt_of_lt_of_le ?_ hmaxw
        apply natAbs_lt_of_bounds
        · have h1 := hcl.2
          push_cast
          linarith
        · have h1 := hcl.1
          push_cast
          linarith


/-- Writing a file makes it readable at its own path. -/
theorem write_self (fs : FS) (p : String) (bs : List Nat) :
    FS.write fs p bs p = some bs := by
  unfold FS.write
  simp

/-- Writing a file leaves every other path untouched. -/
theorem write_ne (fs : FS) (p : String) (bs : List Nat) (q : String) (h : q ≠ p) :
    FS.write fs p bs q = fs q := by
  unfold FS.write
  simp [h]

/-- The content hash only depends on the bytes at the hashed path. -/
theorem hash_congr (pyHash : String → Int) (fs fs' : FS) (p : String)
    (h : fs' p = fs p) :
    get_image_hash pyHash fs' p = get_image_hash pyHash fs p := by
  unfold get_image_hash
  rw [h]

/-- The composed thumbnail path only depends on the bytes at the source path. -/
theorem thumbnail_path_congr (pyHash : String → Int) (fs fs' : FS) (p : String)
    (h : fs' p = fs p) :
    thumbnail_path_of pyHash fs' p = thumbnail_path_of pyHash fs p := by
  unfold thumbnail_path_of
  rw [hash_congr pyHash fs fs' p h]

/-- Mode conversion for WebP leaves the pixel dimensions unchanged. -/
theorem convertForWebP_dims (img : PILImage) :
    (convertForWebP img).width = img.width ∧ (convertForWebP img).height = img.height := by
  unfold convertForWebP
  split <;> exact ⟨rfl, rfl⟩

/-- Inversion of a successful transcode: the source was readable, its bytes
decoded, the resized image saved, and the encoded bytes were written at the
output path. -/
theorem optimize_true_inv (env : Env) (fs : FS) (ip op : String) (t : Nat × Nat)
    (q : Nat) (h : (optimize_image_for_web env fs ip op t q).1 = true) :
    ∃ bs img out, fs ip = some bs ∧ env.decode bs = some img ∧
      env.save (resizedImage img t) "WebP" q = SaveResult.ok out ∧
      (optimize_image_for_web env fs ip op t q).2 = FS.write fs op out := by
  unfold optimize_image_for_web at h ⊢
  rcases hbs : fs ip with _ | bs
  · rw [hbs] at h
    exact Bool.noConfusion h
  · rw [hbs] at h
    dsimp only at h ⊢
    rcases hdec : env.decode bs with _ | img
    · rw [hdec] at h
      exact Bool.noConfusion h
    · rw [hdec] at h
      dsimp only at h ⊢
      rcases hsv : env.save (resizedImage img t) "WebP" q with out | j
      · dsimp only at h ⊢
        exact ⟨bs, img, out, by simp [hbs], by simp [hdec], hsv, by simp [hsv]⟩
      · rw [hsv] at h
        rcases j with _ | junk
        · exact Bool.noConfusion h
        · exact Bool.noConfusion h

/-- C1: a second resolve of a source whose thumbnail artifact was produced
(by cache hit or fresh transcode) returns the same artifact path, finds the
artifact already on disk (the existence check succeeds, so it returns
immediately), and performs no transcoding: the filesystem is unchanged and
the result pair is identical to the first call's. -/
theorem claim_C1 (env : Env) (pyHash : String → Int) (fs : FS) (image_path : String)
    (hsucc : (fs (thumbnail_path_of pyHash fs image_path)).isSome = true ∨
      (optimize_image_for_web env fs image_path (thumbnail_path_of pyHash fs image_path)
        THUMBNAIL_SIZE THUMBNAIL_QUALITY).1 = true) :
    (get_or_create_thumbnail env pyHash fs image_path).1 =
      thumbnail_path_of pyHash fs image_path ∧
    ((get_or_create_thumbnail env pyHash fs image_path).2
      (thumbnail_path_of pyHash (get_or_create_thumbnail env pyHash fs image_path).2
        image_path)).isSome = true ∧
    get_or_create_thumbnail env pyHash
      (get_or_create_thumbnail env pyHash fs image_path).2 image_path =
      get_or_create_thumbnail env pyHash fs image_path := by
  by_cases hhit : (fs (thumbnail_path_of pyHash fs image_path)).isSome = true
  · have hfix : get_or_create_thumbnail env pyHash fs image_path =
        (thumbnail_path_of pyHash fs image_path, fs) := by
      unfold get_or_create_thumbnail
      rw [hhit]
      simp
    rw [hfix]
    exact ⟨rfl, hhit, hfix⟩
  · have hopt : (optimize_image_for_web env fs image_path
        (thumbnail_path_of pyHash fs image_path) THUMBNAIL_SIZE THUMBNAIL_QUALITY).1
        = true := by
      rcases hsucc with hs | hs
      · exact absurd hs hhit
      · exact hs
    have hmiss : (fs (thumbnail_path_of pyHash fs image_path)).isSome = false := by
      rcases Bool.eq_false_or_eq_true
        ((fs (thumbnail_path_of pyHash fs image_path)).isSome) with hb | hb
      · exact absurd hb hhit
      · exact hb
    obtain ⟨bs, img, out, hbs, hdec, hsv, hw2⟩ := optimize_true_inv env fs image_path
      (thumbnail_path_of pyHash fs image_path) THUMBNAIL_SIZE THUMBNAIL_QUALITY hopt
    have hfix : get_or_create_thumbnail env pyHash fs image_path =
        (thumbnail_path_of pyHash fs image_path,
         FS.write fs (thumbnail_path_of pyHash fs image_path) out) := by
      unfold get_or_create_thumbnail
      rw [hmiss, hopt, hw2]
      simp
    have hne : image_path ≠ thumbnail_path_of pyHash fs image_path := by
      intro he
      rw [← he] at hmiss
      rw [hbs] at hmiss
      simp at hmiss
    have hpres : FS.write fs (thumbnail_path_of pyHash fs image_path) out image_path =
        fs image_path :=
      write_ne fs _ out image_path hne
    have htp2 : thumbnail_path_of pyHash
        (FS.write fs (thumbnail_path_of pyHash fs image_path) out) image_path =
        thumbnail_path_of pyHash fs image_path :=
      thumbnail_path_congr pyHash fs _ image_path hpres
    have hex2 : ((FS.write fs (thumbnail_path_of pyHash fs image_path) out)
        (thumbnail_path_of pyHash
          (FS.write fs (thumbnail_path_of pyHash fs image_path) out) image_path)).isSome
        = true := by
      rw [htp2, write_self]
      rfl
    have hsecond : get_or_create_thumbnail env pyHash
        (FS.write fs (thumbnail_path_of pyHash fs image_path) out) image_path =
        (thumbnail_path_of pyHash fs image_path,
         FS.write fs (thumbnail_path_of pyHash fs image_path) out) := by
      unfold get_or_create_thumbnail
      rw [htp2, write_self]
      simp
    rw [hfix]
    exact ⟨rfl, hex2, hsecond⟩

/-- C2: when there is no cached artifact and the transcoder reports failure,
both resolvers return the original source path unchanged; the model's
resolvers are total functions (the catch-all handlers), so no exception
reaches the caller. -/
theorem claim_C2 (env : Env) (pyHash : String → Int) (fs : FS) (image_path : String)
    (hmt : (fs (thumbnail_path_of pyHash fs image_path)).isSome = false)
    (hft : (optimize_image_for_web env fs image_path
      (thumbnail_path_of pyHash fs image_path) THUMBNAIL_SIZE THUMBNAIL_QUALITY).1
      = false)
    (hmp : (fs (preview_path_of pyHash fs image_path)).isSome = false)
    (hfp : (optimize_image_for_web env fs image_path
      (preview_path_of pyHash fs image_path) PREVIEW_SIZE PREVIEW_QUALITY).1 = false) :
    (get_or_create_thumbnail env pyHash fs image_path).1 = image_path ∧
    (get_or_create_preview env pyHash fs image_path).1 = image_path := by
  constructor
  · unfold get_or_create_thumbnail
    rw [hmt, hft]
    simp
  · unfold get_or_create_preview
    rw [hmp, hfp]
    simp

/-- C3: readable files with identical bytes receive the same content key, so
the resolvers compose the same thumbnail and preview artifact paths for them,
independently of the file names. -/
theorem claim_C3 (pyHash : String → Int) (fs : FS) (p1 p2 : String) (bs : List Nat)
    (h1 : fs p1 = some bs) (h2 : fs p2 = some bs) (hne : p1 ≠ p2) :
    get_image_hash pyHash fs p1 = get_image_hash pyHash fs p2 ∧
    thumbnail_path_of pyHash fs p1 = thumbnail_path_of pyHash fs p2 ∧
    preview_path_of pyHash fs p1 = preview_path_of pyHash fs p2 := by
  have hh : get_image_hash pyHash fs p1 = get_image_hash pyHash fs p2 := by
    unfold get_image_hash
    rw [h1, h2]
  refine ⟨hh, ?_, ?_⟩
  · unfold thumbnail_path_of
    rw [hh]
  · unfold preview_path_of
    rw [hh]


/-- C1 witness: on a concrete filesystem whose thumbnail artifact for the
source already exists, the resolver returns that artifact path, finds it on
the second call's existence check, and leaves the state untouched. -/
theorem claim_C1_witness :
    (get_or_create_thumbnail envNone pyHash0 fsHit "foto.jpg").1 =
      thumbnail_path_of pyHash0 fsHit "foto.jpg" ∧
    ((get_or_create_thumbnail envNone pyHash0 fsHit "foto.jpg").2
      (thumbnail_path_of pyHash0
        (get_or_create_thumbnail envNone pyHash0 fsHit "foto.jpg").2 "foto.jpg")).isSome
      = true ∧
    get_or_create_thumbnail envNone pyHash0
      (get_or_create_thumbnail envNone pyHash0 fsHit "foto.jpg").2 "foto.jpg" =
      get_or_create_thumbnail envNone pyHash0 fsHit "foto.jpg" :=
  claim_C1 envNone pyHash0 fsHit "foto.jpg" (Or.inl (by decide))

/-- C2 witness: on the empty filesystem every transcode fails, and both
resolvers fall back to the original source path. -/
theorem claim_C2_witness :
    (get_or_create_thumbnail envNone pyHash0 fsNone "foto.jpg").1 = "foto.jpg" ∧
    (get_or_create_preview envNone pyHash0 fsNone "foto.jpg").1 = "foto.jpg" :=
  claim_C2 envNone pyHash0 fsNone "foto.jpg" (by decide) (by decide) (by decide)
    (by decide)

/-- C3 witness: two concrete files with identical bytes receive identical
content keys and artifact paths. -/
theorem claim_C3_witness :
    get_image_hash pyHash0 fsPair "a.jpg" = get_image_hash pyHash0 fsPair "b.jpg" ∧
    thumbnail_path_of pyHash0 fsPair "a.jpg" = thumbnail_path_of pyHash0 fsPair "b.jpg" ∧
    preview_path_of pyHash0 fsPair "a.jpg" = preview_path_of pyHash0 fsPair "b.jpg" :=
  claim_C3 pyHash0 fsPair "a.jpg" "b.jpg" [7] (by decide) (by decide) (by decide)

/-- The collection loop keeps each result's first component equal to the
submitted original path. -/
theorem collect_map_fst (futures : List (Option String × String)) :
    (futures.map (fun fo =>
      match fo.1 with
      | some thumbnail_path => (fo.2, thumbnail_path)
      | none => (fo.2, fo.2))).map Prod.fst = futures.map Prod.snd := by
  induction futures with
  | nil => rfl
  | cons fo rest ih =>
    rcases fo with ⟨o, p⟩
    rcases o with _ | t
    · simp only [List.map_cons, ih]
    · simp only [List.map_cons, ih]

/-- C4: the batch scheduler returns exactly one pair per input, whose first
components reproduce the input sequence in its original order, for every
possible completion behaviour of the futures (the `outcome` oracle). -/
theorem claim_C4 (outcome : Nat → String → Option String)
    (image_paths : List String) :
    (batch_process_thumbnails_silent outcome image_paths).length =
      image_paths.length ∧
    (batch_process_thumbnails_silent outcome image_paths).map Prod.fst =
      image_paths := by
  constructor
  · simp [batch_process_thumbnails_silent]
  · unfold batch_process_thumbnails_silent
    rw [collect_map_fst, List.map_map]
    have hcomp : (Prod.snd ∘ fun ip : Nat × String => (outcome ip.1 ip.2, ip.2)) =
        Prod.snd := rfl
    rw [hcomp]
    simp

/-- C5: when future `i` times out or raises, its entry degrades to the
original path pair; the batch still has one entry per input, and entries at
all other positions are unaffected by what happened at `i` (any two oracles
agreeing away from `i` produce identical results there). -/
theorem claim_C5 (outcome outcome' : Nat → String → Option String)
    (image_paths : List String) (i : Nat) (p : String)
    (hp : image_paths[i]? = some p) (hfail : outcome i p = none)
    (hagree : ∀ j q, j ≠ i → outcome' j q = outcome j q) :
    (batch_process_thumbnails_silent outcome image_paths)[i]? = some (p, p) ∧
    (batch_process_thumbnails_silent outcome image_paths).length =
      image_paths.length ∧
    ∀ j, j ≠ i →
      (batch_process_thumbnails_silent outcome image_paths)[j]? =
      (batch_process_thumbnails_silent outcome' image_paths)[j]? := by
  refine ⟨?_, by simp [batch_process_thumbnails_silent], ?_⟩
  · unfold batch_process_thumbnails_silent
    simp [List.getElem?_map, List.getElem?_enum, hp, hfail]
  · intro j hj
    unfold batch_process_thumbnails_silent
    simp only [List.getElem?_map, List.getElem?_enum]
    rcases hq : image_paths[j]? with _ | q
    · rfl
    · simp only [Option.map_some']
      rw [hagree j q hj]

/-- C5 witness: in a two-item batch whose second future times out, the second
entry degrades to the original pair, the batch length is preserved, and the
first entry is independent of the second future's behaviour. -/
theorem claim_C5_witness :
    (batch_process_thumbnails_silent outcomeA ["a.jpg", "b.jpg"])[1]? =
      some ("b.jpg", "b.jpg") ∧
    (batch_process_thumbnails_silent outcomeA ["a.jpg", "b.jpg"]).length =
      (["a.jpg", "b.jpg"] : List String).length ∧
    ∀ j, j ≠ 1 →
      (batch_process_thumbnails_silent outcomeA ["a.jpg", "b.jpg"])[j]? =
      (batch_process_thumbnails_silent outcomeB ["a.jpg", "b.jpg"])[j]? :=
  claim_C5 outcomeA outcomeB ["a.jpg", "b.jpg"] 1 "b.jpg" (by decide) (by decide)
    (fun j q hj => by simp [outcomeB, hj])

/-- The source's filter (lowercase name against the 8-entry whitelist) agrees
with the spec's 4-extension case-insensitive predicate. -/
theorem es_imagen_eq_spec (a : String) : es_imagen a = spec_is_image_file a := by
  unfold es_imagen EXTENSIONES spec_is_image_file
  simp only [List.any_cons, List.any_nil]
  have e1 : "." ++ pyLower "jpg" = ".jpg" := by decide
  have e2 : "." ++ pyLower "jpeg" = ".jpeg" := by decide
  have e3 : "." ++ pyLower "png" = ".png" := by decide
  have e4 : "." ++ pyLower "webp" = ".webp" := by decide
  have e5 : "." ++ pyLower "JPG" = ".jpg" := by decide
  have e6 : "." ++ pyLower "JPEG" = ".jpeg" := by decide
  have e7 : "." ++ pyLower "PNG" = ".png" := by decide
  have e8 : "." ++ pyLower "WEBP" = ".webp" := by decide
  rw [e1, e2, e3, e4, e5, e6, e7, e8]
  cases h1 : pyEndsWith (pyLower a) ".jpg" <;>
    cases h2 : pyEndsWith (pyLower a) ".jpeg" <;>
      cases h3 : pyEndsWith (pyLower a) ".png" <;>
        cases h4 : pyEndsWith (pyLower a) ".webp" <;>
          simp [h1, h2, h3, h4]

/-- C6: listing a missing gallery directory yields the empty list; listing an
existing one yields a sorted, duplicate-free list containing exactly the
joined paths of the files whose lowercased names end in .jpg/.jpeg/.png/.webp,
and nothing else. -/
theorem claim_C6 (listdir : String → Option (List String)) (nombre_galeria : String) :
    (listdir ("imagenes/Galerias/" ++ nombre_galeria) = none →
      obtener_imagenes_galeria listdir nombre_galeria = []) ∧
    (∀ archivos, listdir ("imagenes/Galerias/" ++ nombre_galeria) = some archivos →
      List.Sorted (· ≤ ·) (obtener_imagenes_galeria listdir nombre_galeria) ∧
      (obtener_imagenes_galeria listdir nombre_galeria).Nodup ∧
      ∀ x, x ∈ obtener_imagenes_galeria listdir nombre_galeria ↔
        ∃ archivo ∈ archivos, spec_is_image_file archivo = true ∧
          x = replaceBackslash
            ("imagenes/Galerias/" ++ nombre_galeria ++ "/" ++ archivo)) := by
  constructor
  · intro hnone
    simp only [obtener_imagenes_galeria, hnone]
  · intro archivos hsome
    simp only [obtener_imagenes_galeria, hsome]
    refine ⟨List.sorted_insertionSort _ _,
      (List.perm_insertionSort _ _).nodup_iff.mpr (List.nodup_dedup _), ?_⟩
    intro x
    rw [(List.perm_insertionSort _ _).mem_iff, List.mem_dedup, List.mem_map]
    constructor
    · rintro ⟨archivo, hmem, rfl⟩
      rw [List.mem_filter] at hmem
      exact ⟨archivo, hmem.1, by rw [← es_imagen_eq_spec]; exact hmem.2, rfl⟩
    · rintro ⟨archivo, hmem, himg, rfl⟩
      exact ⟨archivo,
        List.mem_filter.mpr ⟨hmem, by rw [es_imagen_eq_spec]; exact himg⟩, rfl⟩

/-- C6 witness: a concrete gallery whose directory holds two case-variant
image names and a text file satisfies the listing contract. -/
theorem claim_C6_witness :
    List.Sorted (· ≤ ·) (obtener_imagenes_galeria listdirBoda "boda") ∧
    (obtener_imagenes_galeria listdirBoda "boda").Nodup ∧
    ∀ x, x ∈ obtener_imagenes_galeria listdirBoda "boda" ↔
      ∃ archivo ∈ ["photo1.JPG", "photo1.jpg", "notes.txt"],
        spec_is_image_file archivo = true ∧
        x = replaceBackslash ("imagenes/Galerias/" ++ "boda" ++ "/" ++ archivo) :=
  (claim_C6 listdirBoda "boda").2 ["photo1.JPG", "photo1.jpg", "notes.txt"]
    (by decide)

/-- C10: with a nonempty gallery, the stored page starts at 0, every
pagination click (including disabled buttons, which leave the state
unchanged) keeps the page within [0, total_pages - 1], and the slice bounds
computed from an in-range page form a valid nonempty window of the image
list. -/
theorem claim_C10 (total_imagenes current_page : Nat) (a : PaginationAction)
    (htotal : 0 < total_imagenes)
    (hpage : current_page ≤ total_pages total_imagenes - 1) :
    init_page none = 0 ∧
    pagination_click total_imagenes current_page a ≤ total_pages total_imagenes - 1 ∧
    start_idx current_page < end_idx total_imagenes current_page ∧
    end_idx total_imagenes current_page ≤ total_imagenes := by
  unfold total_pages IMAGES_PER_PAGE at hpage
  refine ⟨rfl, ?_, ?_, ?_⟩
  · cases a <;> simp only [pagination_click] <;>
      unfold total_pages IMAGES_PER_PAGE <;> split <;> omega
  · unfold end_idx start_idx IMAGES_PER_PAGE
    omega
  · unfold end_idx start_idx IMAGES_PER_PAGE
    omega

/-- C10 witness: a 9-image gallery on page 1 taking the next-page action. -/
theorem claim_C10_witness :
    init_page none = 0 ∧
    pagination_click 9 1 PaginationAction.next ≤ total_pages 9 - 1 ∧
    start_idx 1 < end_idx 9 1 ∧
    end_idx 9 1 ≤ 9 :=
  claim_C10 9 1 PaginationAction.next (by decide) (by decide)

/-- C7: a successful transcode read the source, decoded it, saved the
mode-converted and resized image, and wrote the encoded bytes at the output
path; the resized dimensions fit inside the bounding box, never exceed the
source dimensions, are positive, and preserve the aspect ratio up to
rounding (the cross-multiplied error is below the source's longest side). -/
theorem claim_C7 (env : Env) (fs : FS) (image_path output_path : String)
    (tx ty q : Nat) (htx : 0 < tx) (hty : 0 < ty)
    (hdecode : ∀ bs img, env.decode bs = some img → 0 < img.width ∧ 0 < img.height)
    (hok : (optimize_image_for_web env fs image_path output_path (tx, ty) q).1
      = true) :
    ∃ bs img out,
      fs image_path = some bs ∧ env.decode bs = some img ∧
      env.save (resizedImage img (tx, ty)) "WebP" q = SaveResult.ok out ∧
      (optimize_image_for_web env fs image_path output_path (tx, ty) q).2 output_path
        = some out ∧
      (resizedImage img (tx, ty)).width ≤ tx ∧
      (resizedImage img (tx, ty)).height ≤ ty ∧
      (resizedImage img (tx, ty)).width ≤ img.width ∧
      (resizedImage img (tx, ty)).height ≤ img.height ∧
      0 < (resizedImage img (tx, ty)).width ∧
      0 < (resizedImage img (tx, ty)).height ∧
      ((img.height * (resizedImage img (tx, ty)).width : Int) -
        img.width * (resizedImage img (tx, ty)).height).natAbs
        < max img.width img.height := by
  obtain ⟨bs, img, out, hbs, hdec, hsv, hw2⟩ :=
    optimize_true_inv env fs image_path output_path (tx, ty) q hok
  obtain ⟨hwpos, hhpos⟩ := hdecode bs img hdec
  have hcd := convertForWebP_dims img
  have hspec := pilThumbnailDims_spec img.width img.height tx ty hwpos hhpos htx hty
  have hrw : (resizedImage img (tx, ty)).width =
      (pilThumbnailDims img.width img.height tx ty).1 := by
    simp only [resizedImage]
    rw [hcd.1, hcd.2]
  have hrh : (resizedImage img (tx, ty)).height =
      (pilThumbnailDims img.width img.height tx ty).2 := by
    simp only [resizedImage]
    rw [hcd.1, hcd.2]
  refine ⟨bs, img, out, hbs, hdec, hsv, ?_, ?_, ?_, ?_, ?_, ?_, ?_, ?_⟩
  · rw [hw2]
    exact write_self fs output_path out
  · rw [hrw]
    exact hspec.1
  · rw [hrh]
    exact hspec.2.1
  · rw [hrw]
    exact hspec.2.2.1
  · rw [hrh]
    exact hspec.2.2.2.1
  · rw [hrw]
    exact hspec.2.2.2.2.1
  · rw [hrh]
    exact hspec.2.2.2.2.2.1
  · rw [hrw, hrh]
    exact hspec.2.2.2.2.2.2

/-- C7 witness: a concrete 2 × 2 image transcoded into the (400, 300) box. -/
theorem claim_C7_witness :
    ∃ bs img out,
      fsFoto "foto.jpg" = some bs ∧ envOk.decode bs = some img ∧
      envOk.save (resizedImage img (400, 300)) "WebP" 85 = SaveResult.ok out ∧
      (optimize_image_for_web envOk fsFoto "foto.jpg" "out.webp" (400, 300) 85).2
        "out.webp" = some out ∧
      (resizedImage img (400, 300)).width ≤ 400 ∧
      (resizedImage img (400, 300)).height ≤ 300 ∧
      (resizedImage img (400, 300)).width ≤ img.width ∧
      (resizedImage img (400, 300)).height ≤ img.height ∧
      0 < (resizedImage img (400, 300)).width ∧
      0 < (resizedImage img (400, 300)).height ∧
      ((img.height * (resizedImage img (400, 300)).width : Int) -
        img.width * (resizedImage img (400, 300)).height).natAbs
        < max img.width img.height :=
  claim_C7 envOk fsFoto "foto.jpg" "out.webp" 400 300 85 (by decide) (by decide)
    (fun bs img h => by
      unfold envOk at h
      dsimp only at h
      split at h
      · injection h with h2
        subst h2
        exact ⟨by decide, by decide⟩
      · exact Option.noConfusion h)
    (by decide)

set_option maxRecDepth 100000 in
set_option maxHeartbeats 1000000 in
/-- C8 counterexample: with a save that raises after leaving the byte `[9]`
at the destination, the transcoder returns false and the resolver falls back
to the original path — but the half-written artifact now exists, so a later
resolve of the same source returns the artifact path whose content is the
junk from the failed save. -/
theorem claim_C8_counterexample :
    (optimize_image_for_web envBad fsFoto "foto.jpg" tpFoto THUMBNAIL_SIZE
      THUMBNAIL_QUALITY).1 = false ∧
    (get_or_create_thumbnail envBad pyHash0 fsFoto "foto.jpg").1 = "foto.jpg" ∧
    (get_or_create_thumbnail envBad pyHash0 fsFoto "foto.jpg").2 tpFoto = some [9] ∧
    (get_or_create_thumbnail envBad pyHash0
      (get_or_create_thumbnail envBad pyHash0 fsFoto "foto.jpg").2 "foto.jpg").1 =
      tpFoto ∧
    tpFoto ≠ "foto.jpg" := by decide

/-- C8 (amended): whenever any step of the transcoder fails — unreadable
source, undecodable bytes, or a raising save — it returns false, and a
resolve observing the failure (with no artifact on disk) returns the original
source path; the possibility that a failed save's leftover file is served by
a later resolve is documented by the counterexample. -/
theorem claim_C8_amended (env : Env) (pyHash : String → Int) (fs : FS)
    (image_path output_path : String) (target : Nat × Nat) (q : Nat)
    (hfail : fs image_path = none ∨
      (∃ bs, fs image_path = some bs ∧ env.decode bs = none) ∨
      (∃ bs img j, fs image_path = some bs ∧ env.decode bs = some img ∧
        env.save (resizedImage img target) "WebP" q = SaveResult.err j)) :
    (optimize_image_for_web env fs image_path output_path target q).1 = false ∧
    ((fs (thumbnail_path_of pyHash fs image_path)).isSome = false →
      (optimize_image_for_web env fs image_path
        (thumbnail_path_of pyHash fs image_path) THUMBNAIL_SIZE
        THUMBNAIL_QUALITY).1 = false →
      (get_or_create_thumbnail env pyHash fs image_path).1 = image_path) := by
  constructor
  · rcases hfail with hnone | ⟨bs, hbs, hdec⟩ | ⟨bs, img, j, hbs, hdec, hsv⟩
    · unfold optimize_image_for_web
      rw [hnone]
    · unfold optimize_image_for_web
      rw [hbs]
      dsimp only
      rw [hdec]
    · unfold optimize_image_for_web
      rw [hbs]
      dsimp only
      rw [hdec]
      dsimp only
      rw [hsv]
      rcases j with _ | junk <;> rfl
  · intro hmiss hf
    unfold get_or_create_thumbnail
    rw [hmiss, hf]
    simp

/-- C8 amended witness: on the empty filesystem the transcoder fails and the
resolve call returns the original path. -/
theorem claim_C8_amended_witness :
    (optimize_image_for_web envNone fsNone "foto.jpg" "out.webp" THUMBNAIL_SIZE
      THUMBNAIL_QUALITY).1 = false ∧
    ((fsNone (thumbnail_path_of pyHash0 fsNone "foto.jpg")).isSome = false →
      (optimize_image_for_web envNone fsNone "foto.jpg"
        (thumbnail_path_of pyHash0 fsNone "foto.jpg") THUMBNAIL_SIZE
        THUMBNAIL_QUALITY).1 = false →
      (get_or_create_thumbnail envNone pyHash0 fsNone "foto.jpg").1 = "foto.jpg") :=
  claim_C8_amended envNone pyHash0 fsNone "foto.jpg" "out.webp" THUMBNAIL_SIZE
    THUMBNAIL_QUALITY (Or.inl (by decide))

/-- C9 counterexample: no collision between a fallback key and a content key
is possible at all — a fallback key `str(hash(path))` renders a signed 64-bit
value in at most 20 characters, while a content key is always a 32-character
MD5 hexdigest, so the two key families are disjoint. -/
theorem claim_C9_counterexample :
    ¬ ∃ (pyHash : String → Int) (fs : FS) (unreadable readable : String)
      (bs : List Nat),
      -(2 ^ 63) ≤ pyHash unreadable ∧ pyHash unreadable < 2 ^ 63 ∧
      fs unreadable = none ∧ fs readable = some bs ∧ unreadable ≠ readable ∧
      get_image_hash pyHash fs unreadable = get_image_hash pyHash fs readable := by
  rintro ⟨pyHash, fs, pu, pr, bs, hlo, hhi, hu, hr, hne, heq⟩
  have h1 : (get_image_hash pyHash fs pu).length ≤ 20 := by
    unfold get_image_hash
    rw [hu]
    exact intStr_length_le _ hlo hhi
  have h2 : (get_image_hash pyHash fs pr).length = 32 := by
    unfold get_image_hash
    rw [hr]
    exact md5_hexdigest_length bs
  rw [heq] at h1
  omega

/-- C9 (amended): the degraded path-based fallback key of an unreadable file
is always distinct from the content-based key of any readable file, because
the decimal rendering of a 64-bit hash has at most 20 characters and an MD5
hexdigest has exactly 32. -/
theorem claim_C9_amended (pyHash : String → Int) (fs : FS)
    (unreadable readable : String) (bs : List Nat)
    (hlo : -(2 ^ 63) ≤ pyHash unreadable) (hhi : pyHash unreadable < 2 ^ 63)
    (hu : fs unreadable = none) (hr : fs readable = some bs) :
    get_image_hash pyHash fs unreadable ≠ get_image_hash pyHash fs readable := by
  intro heq
  have h1 : (get_image_hash pyHash fs unreadable).length ≤ 20 := by
    unfold get_image_hash
    rw [hu]
    exact intStr_length_le _ hlo hhi
  have h2 : (get_image_hash pyHash fs readable).length = 32 := by
    unfold get_image_hash
    rw [hr]
    exact md5_hexdigest_length bs
  rw [heq] at h1
  omega

/-- C9 amended witness: a concrete unreadable path and readable file whose
keys differ. -/
theorem claim_C9_amended_witness :
    get_image_hash pyHash0 fsFoto "ausente.jpg" ≠
      get_image_hash pyHash0 fsFoto "foto.jpg" :=
  claim_C9_amended pyHash0 fsFoto "ausente.jpg" "foto.jpg" [1]
    (by norm_num [pyHash0]) (by norm_num [pyHash0]) (by decide) (by decide)

end Fotoweb
